import Mathlib

/-!
Shallow embedding of the Teams-Broadcast bot backend (`src/main.py`).

The bespoke logic of the repository is:
  * a JSON-file-backed store of conversation references keyed by
    `"<channel_id>:<conversation_id>"` (`load_conversation_references`,
    `save_conversation_references`, and the dict `CONVERSATION_REFERENCES`),
  * the turn dispatcher `on_turn`,
  * the proactive broadcaster `send_adaptive_card`,
  * the HTTP handler `messages`.

Python dicts are modelled as association lists with the insertion-order
semantics of CPython dicts (assignment replaces in place or appends).
Optional Python attributes (`None`) are modelled as `Option`.  External
calls (the agent router `supervisor_team.run`, `turn_context.send_activity`,
`adapter.continue_conversation`) are parameters returning `Except String _`;
a `.error e` models the call raising an exception with text `e`.
-/

set_option autoImplicit false

namespace TeamsBroadcast

/-- A bot-framework channel account (`botbuilder.schema.ChannelAccount`);
only its `id` attribute is read by the repository's code. -/
structure ChannelAccount where
  id : String
deriving DecidableEq, Repr

/-- A bot-framework conversation account (`botbuilder.schema.ConversationAccount`);
only its `id` attribute is read by the repository's code. -/
structure ConversationAccount where
  id : String
deriving DecidableEq, Repr

/-- The six fields of `botbuilder.schema.ConversationReference` that
`src/main.py` reads and writes.  A `none` in an `Option` field models
Python `None`. -/
structure ConversationReference where
  activity_id : Option String
  user : Option ChannelAccount
  bot : Option ChannelAccount
  conversation : Option ConversationAccount
  channel_id : Option String
  service_url : Option String
deriving DecidableEq, Repr

/-- The plain-dict form of a channel account as written to the JSON file by
`as_dict()` in `save_conversation_references`. -/
structure ChannelAccountDict where
  id : String
deriving DecidableEq, Repr

/-- The plain-dict form of a conversation account as written to the JSON
file by `as_dict()` in `save_conversation_references`. -/
structure ConversationAccountDict where
  id : String
deriving DecidableEq, Repr

/-- One well-formed value of the backing JSON file
(`conversation_references.json`): the six-field record that
`save_conversation_references` writes, with JSON `null` modelled as
`Option.none` and sub-objects as plain field records. -/
structure RawEntry where
  activity_id : Option String
  user : Option ChannelAccountDict
  bot : Option ChannelAccountDict
  conversation : Option ConversationAccountDict
  channel_id : Option String
  service_url : Option String
deriving DecidableEq, Repr

/-- The in-memory store `CONVERSATION_REFERENCES`: a Python dict keyed by
conversation key, modelled as an insertion-ordered association list. -/
abbrev Store : Type := List (String × ConversationReference)

/-- Python `key in d` / `d[key]` on a dict, as an association-list lookup. -/
def lookupKey {α : Type} : List (String × α) → String → Option α
  | [], _ => none
  | (k, v) :: rest, key => if key = k then some v else lookupKey rest key

/-- Python dict assignment `d[key] = v`: replaces the entry in place when the
key is present, appends otherwise (CPython insertion-order semantics). -/
def upsertMap {α : Type} : List (String × α) → String → α → List (String × α)
  | [], k, v => [(k, v)]
  | (k', v') :: rest, k, v =>
      if k = k' then (k, v) :: rest else (k', v') :: upsertMap rest k v

/-- The dict comprehension body of `save_conversation_references`
(src/main.py lines 90-97): one reference reduced to its six fields, each
sub-object converted by `as_dict()` or serialized as `null` when absent. -/
def toRawEntry (ref : ConversationReference) : RawEntry :=
  { activity_id := ref.activity_id
    user := ref.user.map fun u => ChannelAccountDict.mk u.id
    bot := ref.bot.map fun b => ChannelAccountDict.mk b.id
    conversation := ref.conversation.map fun c => ConversationAccountDict.mk c.id
    channel_id := ref.channel_id
    service_url := ref.service_url }

/-- The function `save_conversation_references` (src/main.py lines 85-102): serializes the
full in-memory mapping, each entry reduced to its six fields, each sub-object
converted by `as_dict()` to a plain field record, or `null` when absent. -/
def save_conversation_references (s : Store) : List (String × RawEntry) :=
  s.map fun kv => (kv.1, toRawEntry kv.2)

/-- Python `s.startswith(pre)`, computed on the character lists so the
kernel can evaluate it. -/
def pyStartsWith (s pre : String) : Bool :=
  pre.data.isPrefixOf s.data

/-- The acceptance test of `load_conversation_references` (line 76):
`key.startswith("msteams:") and val.get('conversation') and
val['conversation'].get('id')`.  A missing conversation and an
empty `id` are both Python-falsy. -/
def acceptRaw (key : String) (val : RawEntry) : Bool :=
  pyStartsWith key "msteams:" &&
    (match val.conversation with
     | none => false
     | some c => !(c.id = ""))

/-- The constructor call `ConversationReference(**val)` (line 77): rebuilding an in-memory
reference from a raw file entry, field by field. -/
def fromRaw (val : RawEntry) : ConversationReference :=
  { activity_id := val.activity_id
    user := val.user.map fun u => ChannelAccount.mk u.id
    bot := val.bot.map fun b => ChannelAccount.mk b.id
    conversation := val.conversation.map fun c => ConversationAccount.mk c.id
    channel_id := val.channel_id
    service_url := val.service_url }

/-- The function `load_conversation_references` (src/main.py lines 67-83): iterates the
parsed file entries in order, inserting into a fresh dict exactly those
whose key has the Teams marker and whose conversation carries a
non-empty id; every other entry is skipped (with a diagnostic print). -/
def load_conversation_references (data : List (String × RawEntry)) : Store :=
  data.foldl
    (fun acc kv =>
      if acceptRaw kv.1 kv.2 then upsertMap acc kv.1 (fromRaw kv.2) else acc)
    []

/-- The two activity-type strings `src/main.py` compares against
(`ActivityTypes.message`, `ActivityTypes.conversation_update`). -/
def ActivityTypes.message : String := "message"

/-- The bot-framework wire value of `ActivityTypes.conversation_update`. -/
def ActivityTypes.conversation_update : String := "conversationUpdate"

/-- The fields of an inbound `botbuilder.schema.Activity` that `on_turn`
reads.  `members_added = []` models both Python `None` and an empty list
(both falsy).  `recipient`, `from_property`, `text` and `id` may be `None`. -/
structure Activity where
  type : String
  id : Option String
  channel_id : String
  service_url : String
  conversation : Option ConversationAccount
  from_property : Option ChannelAccount
  recipient : Option ChannelAccount
  text : Option String
  members_added : List ChannelAccount
deriving DecidableEq, Repr

/-- The `ConversationReference(...)` constructed at src/main.py lines
215-222 from the activity's fields. -/
def mkRef (a : Activity) : ConversationReference :=
  { activity_id := a.id
    user := a.from_property
    bot := a.recipient
    conversation := a.conversation
    channel_id := some a.channel_id
    service_url := some a.service_url }

/-- The update test of src/main.py line 214:
`conversation_key not in CONVERSATION_REFERENCES or
CONVERSATION_REFERENCES[conversation_key].service_url != activity.service_url`. -/
def needsUpdate (store : Store) (key : String) (surl : String) : Bool :=
  match lookupKey store key with
  | none => true
  | some r => if r.service_url = some surl then false else true

/-- The store-mutation block of `on_turn` (src/main.py lines 211-224):
returns the (possibly) updated store, whether an upsert happened, and the
file contents written by the synchronous `save_conversation_references()`
call (`none` when no save was triggered). -/
def storeUpdate (store : Store) (a : Activity) (conv : ConversationAccount) :
    Store × Bool × Option (List (String × RawEntry)) :=
  let key := a.channel_id ++ ":" ++ conv.id
  if a.channel_id = "msteams" ∧ needsUpdate store key a.service_url = true then
    let s' := upsertMap store key (mkRef a)
    (s', true, some (save_conversation_references s'))
  else
    (store, false, none)

/-- Everything observable about one `on_turn` call: the final store, whether
an upsert-and-save was triggered (and what was written), the arguments of the
router calls, the texts sent on the turn context, and the exception (if any)
that propagated out of the handler. -/
structure TurnResult where
  store : Store
  saved : Bool
  fileWrite : Option (List (String × RawEntry))
  routerCalls : List (Option String)
  replies : List String
  error : Option String
deriving DecidableEq, Repr

/-- The fixed greeting of src/main.py line 236. -/
def greeting : String := "Hello! How can I assist you today?"

/-- The Python text of the exception raised by `activity.recipient.id`
when `recipient` is `None`. -/
def recipientNoneError : String :=
  "AttributeError: 'NoneType' object has no attribute 'id'"

/-- The member loop of src/main.py lines 234-237: for each added member,
dereference `activity.recipient.id` (raising when `recipient` is `None`),
and on the first member whose id differs send the greeting once and return.
Yields the sent texts and the propagated exception, if any. -/
def greetLoop (send : String → Except String Unit)
    (recipient : Option ChannelAccount) :
    List ChannelAccount → List String × Option String
  | [] => ([], none)
  | m :: rest =>
    match recipient with
    | none => ([], some recipientNoneError)
    | some r =>
      if m.id = r.id then greetLoop send recipient rest
      else
        match send greeting with
        | .ok _ => ([greeting], none)
        | .error e => ([], some e)

/-- The turn dispatcher `on_turn` (src/main.py lines 205-237).
`router` models `supervisor_team.run(...).content` and `send` models
`turn_context.send_activity`; an `.error e` models the call raising. -/
def on_turn (router : Option String → Except String String)
    (send : String → Except String Unit)
    (store : Store) (a : Activity) : TurnResult :=
  match a.conversation with
  | none => ⟨store, false, none, [], [], none⟩
  | some conv =>
    if conv.id = "" then ⟨store, false, none, [], [], none⟩
    else
      let upd := storeUpdate store a conv
      if a.type = ActivityTypes.message then
        match router a.text with
        | .error e => ⟨upd.1, upd.2.1, upd.2.2, [a.text], [], some e⟩
        | .ok content =>
          match send content with
          | .error e => ⟨upd.1, upd.2.1, upd.2.2, [a.text], [], some e⟩
          | .ok _ => ⟨upd.1, upd.2.1, upd.2.2, [a.text], [content], none⟩
      else if a.type = ActivityTypes.conversation_update ∧ a.members_added ≠ [] then
        let g := greetLoop send a.recipient a.members_added
        ⟨upd.1, upd.2.1, upd.2.2, [], g.1, g.2⟩
      else
        ⟨upd.1, upd.2.1, upd.2.2, [], [], none⟩

/-- One element of the `results` list built by `send_adaptive_card`:
a conversation key, `"success"` or `"error"`, and the error message
(absent on success). -/
structure ItemResult where
  conversation : String
  status : String
  message : Option String
deriving DecidableEq, Repr

/-- The aggregate dict returned by `send_adaptive_card`. -/
structure BroadcastResult where
  status : String
  message : Option String
  results : List ItemResult
deriving DecidableEq, Repr

/-- The per-entry validity test of src/main.py line 172:
`not ref.conversation or not ref.conversation.id` (negated). -/
def hasConvId (ref : ConversationReference) : Bool :=
  match ref.conversation with
  | none => false
  | some c => !(c.id = "")

/-- The outcome recorded for one stored reference by the loop body of
`send_adaptive_card` (src/main.py lines 171-201): an error entry without a
transport attempt when the conversation identity is missing, otherwise the
result of `adapter.continue_conversation`. -/
def itemResultFor (transport : ConversationReference → Except String Unit)
    (kv : String × ConversationReference) : ItemResult :=
  if hasConvId kv.2 then
    match transport kv.2 with
    | .ok _ => ⟨kv.1, "success", none⟩
    | .error e => ⟨kv.1, "error", some e⟩
  else
    ⟨kv.1, "error", some "Invalid conversation.id"⟩

/-- The broadcaster `send_adaptive_card` (src/main.py lines 164-203).
`transport` models `adapter.continue_conversation` delivering the adaptive
card to one stored reference.  The second component of the result records
the references for which the transport was actually invoked. -/
def send_adaptive_card (transport : ConversationReference → Except String Unit)
    (store : Store) : BroadcastResult × List String :=
  if store = [] then
    (⟨"error",
      some "No conversation references available. Interact with the bot first.",
      []⟩, [])
  else
    (⟨"completed", none, store.map (itemResultFor transport)⟩,
     (store.filter fun kv => hasConvId kv.2).map Prod.fst)

/-- A Python exception as the HTTP handler sees it: whether it is a
`ValueError` (the class its first `except` clause catches) and its text. -/
structure PyExc where
  isValueError : Bool
  msg : String
deriving DecidableEq, Repr

/-- The body of an HTTP response of the `/api/messages` handler: the empty
JSON object on success, or a `detail` string from `HTTPException`. -/
inductive RespBody where
  | emptyObj
  | detail (s : String)
deriving DecidableEq, Repr

/-- An HTTP response: status code and body. -/
structure HttpResponse where
  status : Nat
  body : RespBody
deriving DecidableEq, Repr

/-- The `POST /api/messages` handler (src/main.py lines 243-254).
`parsed` models `await request.json()` plus deserialization (an `.error`
models that raising), and `process` models
`adapter.process_activity(activity, auth_header, on_turn)`.  The `except
ValueError` clause catches `ValueError`s raised anywhere in the `try`
block; every other exception falls to the catch-all 500 clause. -/
def messages {β : Type} (parsed : Except PyExc β)
    (process : β → Except PyExc Unit) : HttpResponse :=
  match parsed with
  | .error e =>
    if e.isValueError then ⟨400, .detail "Invalid JSON in request body"⟩
    else ⟨500, .detail e.msg⟩
  | .ok b =>
    match process b with
    | .ok _ => ⟨200, .emptyObj⟩
    | .error e =>
      if e.isValueError then ⟨400, .detail "Invalid JSON in request body"⟩
      else ⟨500, .detail e.msg⟩

/-- The well-formedness every stored entry actually enjoys: a key carrying
the Teams marker and a conversation with a non-empty id. -/
def EntryWF (kv : String × ConversationReference) : Prop :=
  pyStartsWith kv.1 "msteams:" = true ∧
    ∃ c, kv.2.conversation = some c ∧ c.id ≠ ""

/-- Well-formedness of a whole store. -/
def StoreWF (s : Store) : Prop := ∀ kv ∈ s, EntryWF kv

/-- A sample inbound Teams message activity, used to instantiate the
dispatcher theorems. -/
def wActMsg : Activity :=
  { type := "message", id := some "a1", channel_id := "msteams",
    service_url := "https://smba.example", conversation := some ⟨"c1"⟩,
    from_property := some ⟨"u1"⟩, recipient := some ⟨"b1"⟩,
    text := some "hello", members_added := [] }

/-- A sample conversation-update activity with two added members, used to
instantiate the dispatcher theorems. -/
def wActUpd : Activity :=
  { type := "conversationUpdate", id := some "a2", channel_id := "msteams",
    service_url := "https://smba.example", conversation := some ⟨"c1"⟩,
    from_property := some ⟨"u1"⟩, recipient := some ⟨"b1"⟩,
    text := none, members_added := [⟨"b1"⟩, ⟨"u9"⟩] }

/-! ### Association-list (Python dict) lemmas -/

theorem lookupKey_upsertMap_self {α : Type} (l : List (String × α)) (k : String) (v : α) :
    lookupKey (upsertMap l k v) k = some v := by
  induction l with
  | nil => simp [upsertMap, lookupKey]
  | cons hd tl ih =>
    by_cases h : k = hd.1
    · simp [upsertMap, h, lookupKey]
    · simp only [upsertMap]
      rw [if_neg h]
      simp only [lookupKey]
      rw [if_neg h]
      exact ih

theorem mem_upsertMap {α : Type} (l : List (String × α)) (k : String) (v : α)
    (kv : String × α) (h : kv ∈ upsertMap l k v) : kv ∈ l ∨ kv = (k, v) := by
  induction l with
  | nil => simp [upsertMap] at h; right; simp [h]
  | cons hd tl ih =>
    by_cases hk : k = hd.1
    · simp only [upsertMap] at h
      rw [if_pos hk] at h
      rcases List.mem_cons.mp h with h1 | h1
      · right; simp [h1]
      · left; exact List.mem_cons_of_mem _ h1
    · simp only [upsertMap] at h
      rw [if_neg hk] at h
      rcases List.mem_cons.mp h with h1 | h1
      · left; simp [h1]
      · rcases ih h1 with h2 | h2
        · left; exact List.mem_cons_of_mem _ h2
        · right; exact h2

theorem upsertMap_of_not_mem {α : Type} (l : List (String × α)) (k : String) (v : α)
    (h : k ∉ l.map Prod.fst) : upsertMap l k v = l ++ [(k, v)] := by
  induction l with
  | nil => simp [upsertMap]
  | cons hd tl ih =>
    simp only [List.map_cons, List.mem_cons] at h
    push_neg at h
    simp only [upsertMap]
    rw [if_neg h.1]
    simp [ih h.2]

theorem lookupKey_append_left {α : Type} (l₁ l₂ : List (String × α)) (k : String)
    (h : lookupKey l₁ k = none) : lookupKey (l₁ ++ l₂) k = lookupKey l₂ k := by
  induction l₁ with
  | nil => simp
  | cons hd tl ih =>
    simp only [lookupKey] at h ⊢
    by_cases hk : k = hd.1
    · rw [if_pos hk] at h; cases h
    · rw [if_neg hk] at h ⊢
      exact ih h

theorem lookupKey_eq_none_iff {α : Type} (l : List (String × α)) (k : String) :
    lookupKey l k = none ↔ k ∉ l.map Prod.fst := by
  induction l with
  | nil => simp [lookupKey]
  | cons hd tl ih =>
    simp only [lookupKey, List.map_cons, List.mem_cons]
    by_cases hk : k = hd.1
    · rw [if_pos hk]; simp [hk]
    · rw [if_neg hk]; simp [hk, ih]

/-! ### Save / load lemmas -/

theorem fromRaw_toRawEntry (ref : ConversationReference) :
    fromRaw (toRawEntry ref) = ref := by
  obtain ⟨aid, user, bot, conv, ch, su⟩ := ref
  cases user <;> cases bot <;> cases conv <;> rfl

theorem lookupKey_save (s : Store) (k : String) :
    lookupKey (save_conversation_references s) k = (lookupKey s k).map toRawEntry := by
  induction s with
  | nil => rfl
  | cons hd tl ih =>
    simp only [save_conversation_references, List.map_cons, lookupKey]
    by_cases hk : k = hd.1
    · rw [if_pos hk, if_pos hk]; rfl
    · rw [if_neg hk, if_neg hk]
      exact ih

theorem acceptRaw_iff (key : String) (val : RawEntry) :
    acceptRaw key val = true ↔
      (pyStartsWith key "msteams:" = true ∧
        ∃ c, val.conversation = some c ∧ c.id ≠ "") := by
  unfold acceptRaw
  cases hc : val.conversation with
  | none => simp
  | some c =>
    simp only [Bool.and_eq_true, Bool.not_eq_true']
    constructor
    · rintro ⟨h1, h2⟩
      exact ⟨h1, c, rfl, by simpa using h2⟩
    · rintro ⟨h1, c', hc', h2⟩
      cases hc'
      exact ⟨h1, by simpa using h2⟩

theorem load_foldl_eq (data : List (String × RawEntry)) :
    ∀ acc : Store,
      (∀ kv ∈ data, kv.1 ∉ acc.map Prod.fst) →
      (data.map Prod.fst).Nodup →
      data.foldl
          (fun acc kv =>
            if acceptRaw kv.1 kv.2 then upsertMap acc kv.1 (fromRaw kv.2) else acc)
          acc
        = acc ++ (data.filter fun kv => acceptRaw kv.1 kv.2).map
            fun kv => (kv.1, fromRaw kv.2) := by
  induction data with
  | nil => intro acc _ _; simp
  | cons hd tl ih =>
    intro acc hdisj hnd
    simp only [List.map_cons, List.nodup_cons] at hnd
    by_cases hacc : acceptRaw hd.1 hd.2
    · have hstep : upsertMap acc hd.1 (fromRaw hd.2) = acc ++ [(hd.1, fromRaw hd.2)] :=
        upsertMap_of_not_mem _ _ _ (hdisj hd (List.mem_cons_self _ _))
      simp only [List.foldl_cons, if_pos hacc, hstep]
      rw [ih (acc ++ [(hd.1, fromRaw hd.2)])
        (by
          intro kv hkv
          simp only [List.map_append, List.mem_append, List.map_cons]
          push_neg
          refine ⟨hdisj kv (List.mem_cons_of_mem _ hkv), ?_⟩
          simp only [List.map_nil, List.mem_singleton]
          intro hEq
          exact hnd.1 (hEq ▸ List.mem_map_of_mem Prod.fst hkv))
        hnd.2]
      simp [hacc]
    · simp only [List.foldl_cons, if_neg hacc]
      rw [ih acc (fun kv hkv => hdisj kv (List.mem_cons_of_mem _ hkv)) hnd.2]
      simp [hacc]

theorem load_eq_filterMap (data : List (String × RawEntry))
    (hnd : (data.map Prod.fst).Nodup) :
    load_conversation_references data
      = (data.filter fun kv => acceptRaw kv.1 kv.2).map fun kv => (kv.1, fromRaw kv.2) := by
  have h := load_foldl_eq data [] (by simp) hnd
  simpa [load_conversation_references] using h

/-! ### Dispatcher helper lemmas -/

theorem needsUpdate_true_iff (store : Store) (key surl : String) :
    needsUpdate store key surl = true ↔
      (lookupKey store key = none ∨
        ∃ old, lookupKey store key = some old ∧ old.service_url ≠ some surl) := by
  unfold needsUpdate
  cases h : lookupKey store key with
  | none => simp
  | some r =>
    by_cases hs : r.service_url = some surl
    · simp [hs]
    · simp [hs]

theorem isPrefixOf_append (l t : List Char) : l.isPrefixOf (l ++ t) = true := by
  induction l with
  | nil => simp
  | cons c cs ih => simp [List.isPrefixOf_cons₂, ih]

theorem pyStartsWith_append (p t : String) : pyStartsWith (p ++ t) p = true := by
  unfold pyStartsWith
  rw [String.data_append]
  exact isPrefixOf_append p.data t.data

theorem storeUpdate_pos (store : Store) (a : Activity) (conv : ConversationAccount)
    (hch : a.channel_id = "msteams")
    (hupd : needsUpdate store (a.channel_id ++ ":" ++ conv.id) a.service_url = true) :
    storeUpdate store a conv =
      (upsertMap store (a.channel_id ++ ":" ++ conv.id) (mkRef a), true,
        some (save_conversation_references
          (upsertMap store (a.channel_id ++ ":" ++ conv.id) (mkRef a)))) := by
  unfold storeUpdate
  rw [if_pos ⟨hch, hupd⟩]

theorem storeUpdate_neg (store : Store) (a : Activity) (conv : ConversationAccount)
    (h : ¬ (a.channel_id = "msteams" ∧
      needsUpdate store (a.channel_id ++ ":" ++ conv.id) a.service_url = true)) :
    storeUpdate store a conv = (store, false, none) := by
  unfold storeUpdate
  rw [if_neg h]

theorem on_turn_no_conversation (router : Option String → Except String String)
    (send : String → Except String Unit) (store : Store) (a : Activity)
    (hconv : a.conversation = none) :
    on_turn router send store a = ⟨store, false, none, [], [], none⟩ := by
  unfold on_turn
  rw [hconv]

theorem on_turn_empty_conversation (router : Option String → Except String String)
    (send : String → Except String Unit) (store : Store) (a : Activity)
    (c : ConversationAccount) (hconv : a.conversation = some c) (hid : c.id = "") :
    on_turn router send store a = ⟨store, false, none, [], [], none⟩ := by
  unfold on_turn
  rw [hconv]
  simp only []
  rw [if_pos hid]

theorem on_turn_store_fields (router : Option String → Except String String)
    (send : String → Except String Unit) (store : Store) (a : Activity)
    (c : ConversationAccount) (hconv : a.conversation = some c) (hid : c.id ≠ "") :
    (on_turn router send store a).store = (storeUpdate store a c).1 ∧
      (on_turn router send store a).saved = (storeUpdate store a c).2.1 ∧
      (on_turn router send store a).fileWrite = (storeUpdate store a c).2.2 := by
  unfold on_turn
  rw [hconv]
  simp only []
  rw [if_neg hid]
  by_cases ht : a.type = ActivityTypes.message
  · rw [if_pos ht]
    rcases hr : router a.text with e | content
    · simp
    · rcases hs : send content with e | u <;> simp [hs]
  · rw [if_neg ht]
    by_cases hcu : a.type = ActivityTypes.conversation_update ∧ a.members_added ≠ []
    · rw [if_pos hcu]; exact ⟨rfl, rfl, rfl⟩
    · rw [if_neg hcu]; exact ⟨rfl, rfl, rfl⟩

theorem on_turn_message_shape (router : Option String → Except String String)
    (send : String → Except String Unit) (store : Store) (a : Activity)
    (c : ConversationAccount) (hconv : a.conversation = some c) (hid : c.id ≠ "")
    (ht : a.type = ActivityTypes.message) :
    (on_turn router send store a).routerCalls = [a.text] ∧
      ((on_turn router send store a).replies, (on_turn router send store a).error)
        = (match router a.text with
           | .error e => ([], some e)
           | .ok content =>
             match send content with
             | .error e => ([], some e)
             | .ok _ => ([content], none)) := by
  unfold on_turn
  rw [hconv]
  simp only []
  rw [if_neg hid, if_pos ht]
  rcases hr : router a.text with e | content
  · simp
  · rcases hs : send content with e | u <;> simp [hs]

theorem on_turn_update_shape (router : Option String → Except String String)
    (send : String → Except String Unit) (store : Store) (a : Activity)
    (c : ConversationAccount) (hconv : a.conversation = some c) (hid : c.id ≠ "")
    (ht : a.type = ActivityTypes.conversation_update)
    (hm : a.members_added ≠ []) :
    (on_turn router send store a).routerCalls = [] ∧
      (on_turn router send store a).replies
        = (greetLoop send a.recipient a.members_added).1 ∧
      (on_turn router send store a).error
        = (greetLoop send a.recipient a.members_added).2 := by
  unfold on_turn
  rw [hconv]
  simp only []
  rw [if_neg hid, if_neg (by rw [ht]; decide), if_pos ⟨ht, hm⟩]
  exact ⟨rfl, rfl, rfl⟩

theorem greetLoop_some_spec (send : String → Except String Unit)
    (r : ChannelAccount) (hsend : send greeting = .ok ()) :
    ∀ ms : List ChannelAccount,
      ((∃ m ∈ ms, m.id ≠ r.id) → greetLoop send (some r) ms = ([greeting], none)) ∧
      ((∀ m ∈ ms, m.id = r.id) → greetLoop send (some r) ms = ([], none)) := by
  intro ms
  induction ms with
  | nil => simp [greetLoop]
  | cons m rest ih =>
    constructor
    · rintro ⟨m', hm', hne⟩
      by_cases hm : m.id = r.id
      · have hrest : ∃ x ∈ rest, x.id ≠ r.id := by
          rcases List.mem_cons.mp hm' with h | h
          · exact absurd (h ▸ hm) hne
          · exact ⟨m', h, hne⟩
        simp only [greetLoop]
        rw [if_pos hm]
        exact ih.1 hrest
      · simp only [greetLoop]
        rw [if_neg hm, hsend]
    · intro hall
      have hm : m.id = r.id := hall m (List.mem_cons_self _ _)
      simp only [greetLoop]
      rw [if_pos hm]
      exact ih.2 fun x hx => hall x (List.mem_cons_of_mem _ hx)

theorem greetLoop_none_spec (send : String → Except String Unit)
    (m : ChannelAccount) (rest : List ChannelAccount) :
    greetLoop send none (m :: rest) = ([], some recipientNoneError) := rfl

theorem entryWF_of_acceptRaw (k : String) (v : RawEntry)
    (h : acceptRaw k v = true) : EntryWF (k, fromRaw v) := by
  rcases (acceptRaw_iff k v).mp h with ⟨hpre, c, hc, hid⟩
  refine ⟨hpre, ConversationAccount.mk c.id, ?_, hid⟩
  simp [fromRaw, hc]

theorem load_foldl_wf (data : List (String × RawEntry)) :
    ∀ acc : Store, StoreWF acc →
      StoreWF (data.foldl
        (fun acc kv =>
          if acceptRaw kv.1 kv.2 then upsertMap acc kv.1 (fromRaw kv.2) else acc)
        acc) := by
  induction data with
  | nil => intro acc hacc; exact hacc
  | cons hd tl ih =>
    intro acc hacc
    simp only [List.foldl_cons]
    by_cases h : acceptRaw hd.1 hd.2
    · rw [if_pos h]
      refine ih _ ?_
      intro kv hkv
      rcases mem_upsertMap _ _ _ kv hkv with hmem | heq
      · exact hacc kv hmem
      · rw [heq]; exact entryWF_of_acceptRaw hd.1 hd.2 h
    · rw [if_neg h]
      exact ih acc hacc

theorem load_wf (data : List (String × RawEntry)) :
    StoreWF (load_conversation_references data) :=
  load_foldl_wf data [] (by intro kv hkv; cases hkv)

theorem lookupKey_load_filter (data : List (String × RawEntry)) (k : String)
    (v : RawEntry) :
    (data.map Prod.fst).Nodup → (k, v) ∈ data →
      lookupKey
          ((data.filter fun kv => acceptRaw kv.1 kv.2).map fun kv => (kv.1, fromRaw kv.2)) k
        = if acceptRaw k v then some (fromRaw v) else none := by
  induction data with
  | nil => intro _ hmem; cases hmem
  | cons hd tl ih =>
    intro hnd hmem
    obtain ⟨k', v'⟩ := hd
    simp only [List.map_cons, List.nodup_cons] at hnd
    rcases List.mem_cons.mp hmem with heq | hmem'
    · injection heq with hk hv
      subst hk; subst hv
      by_cases hacc : acceptRaw k v
      · simp [List.filter_cons, hacc, lookupKey]
      · simp only [List.filter_cons, hacc, Bool.false_eq_true, if_neg, ite_false]
        rw [lookupKey_eq_none_iff]
        intro hin
        apply hnd.1
        have : k ∈ ((tl.filter fun kv => acceptRaw kv.1 kv.2).map Prod.fst) := by
          simpa using hin
        have hsub : ((tl.filter fun kv => acceptRaw kv.1 kv.2).map Prod.fst)
            ⊆ tl.map Prod.fst :=
          List.map_subset _ fun x hx => List.mem_of_mem_filter hx
        exact hsub this
    · have hk : k ≠ k' := by
        intro h
        exact hnd.1 (h ▸ List.mem_map_of_mem Prod.fst hmem')
      by_cases hacc : acceptRaw k' v'
      · simp only [List.filter_cons, hacc, if_pos, List.map_cons, lookupKey]
        rw [if_neg hk]
        exact ih hnd.2 hmem'
      · simp only [List.filter_cons, hacc, Bool.false_eq_true, if_neg, ite_false]
        exact ih hnd.2 hmem'

theorem map_fromRaw_toRawEntry (s : Store) :
    s.map (fun kv => (kv.1, fromRaw (toRawEntry kv.2))) = s := by
  induction s with
  | nil => rfl
  | cons hd tl ih => simp [ih, fromRaw_toRawEntry]

/-! ### Claim theorems -/

/-- C2: for every in-memory store whose entries all have keys prefixed
`"msteams:"` and a conversation with a non-empty id (and distinct keys, as
in a Python dict), running `save_conversation_references` and then
`load_conversation_references` on its output reproduces exactly the same
store: the same key set, and for each key the same six fields, absent
optional sub-objects having been serialized as `null` (`Option.none`)
and read back. -/
theorem save_load_round_trip (s : Store)
    (hnd : (s.map Prod.fst).Nodup) (hwf : StoreWF s) :
    load_conversation_references (save_conversation_references s) = s := by
  have hkeys : (save_conversation_references s).map Prod.fst = s.map Prod.fst := by
    simp [save_conversation_references]
  have haccept : ∀ kv ∈ save_conversation_references s, acceptRaw kv.1 kv.2 = true := by
    intro kv hkv
    rcases List.mem_map.mp hkv with ⟨orig, hmem, horig⟩
    rcases hwf orig hmem with ⟨hpre, c, hc, hid⟩
    rw [← horig]
    rw [acceptRaw_iff]
    exact ⟨hpre, ConversationAccountDict.mk c.id, by simp [toRawEntry, hc], hid⟩
  rw [load_eq_filterMap _ (hkeys ▸ hnd), List.filter_eq_self.mpr haccept,
    save_conversation_references, List.map_map]
  exact map_fromRaw_toRawEntry s

/-- Concrete instance of C2: a two-entry store (the second entry with
absent `activity_id`, `user` and `bot`) survives the save/load round trip
unchanged. -/
theorem save_load_round_trip_witness :
    load_conversation_references (save_conversation_references
        [("msteams:c1",
          ⟨some "a1", some ⟨"u1"⟩, some ⟨"b1"⟩, some ⟨"c1"⟩, some "msteams",
            some "https://smba.example"⟩),
         ("msteams:c2",
          ⟨none, none, none, some ⟨"c2"⟩, some "msteams", some "https://smba.example"⟩)])
      = [("msteams:c1",
          ⟨some "a1", some ⟨"u1"⟩, some ⟨"b1"⟩, some ⟨"c1"⟩, some "msteams",
            some "https://smba.example"⟩),
         ("msteams:c2",
          ⟨none, none, none, some ⟨"c2"⟩, some "msteams", some "https://smba.example"⟩)] := by
  apply save_load_round_trip
  · decide
  · intro kv hkv
    rcases List.mem_cons.mp hkv with h | h
    · subst h
      exact ⟨by decide, ⟨"c1"⟩, rfl, by decide⟩
    · rcases List.mem_singleton.mp h with rfl
      exact ⟨by decide, ⟨"c2"⟩, rfl, by decide⟩

/-- C3: on a file with distinct keys (a parsed JSON object),
`load_conversation_references` admits a raw entry into the in-memory
mapping if and only if the entry's key starts with `"msteams:"` and the
entry's conversation field is present with a non-empty id; every other
entry is discarded and its key does not appear in the resulting store. -/
theorem load_accepts_iff (data : List (String × RawEntry))
    (hnd : (data.map Prod.fst).Nodup) (k : String) (v : RawEntry)
    (hmem : (k, v) ∈ data) :
    (lookupKey (load_conversation_references data) k = some (fromRaw v) ↔
        (pyStartsWith k "msteams:" = true ∧ ∃ c, v.conversation = some c ∧ c.id ≠ ""))
      ∧ (¬ (pyStartsWith k "msteams:" = true ∧ ∃ c, v.conversation = some c ∧ c.id ≠ "") →
          lookupKey (load_conversation_references data) k = none) := by
  rw [load_eq_filterMap data hnd]
  have h := lookupKey_load_filter data k v hnd hmem
  constructor
  · rw [h]
    by_cases hacc : acceptRaw k v
    · simp only [hacc, if_pos]
      constructor
      · intro _; exact (acceptRaw_iff k v).mp hacc
      · intro _; trivial
    · rw [if_neg hacc]
      constructor
      · intro hfalse; cases hfalse
      · intro hcond
        exact absurd ((acceptRaw_iff k v).mpr hcond) hacc
  · intro hncond
    rw [h, if_neg fun hacc => hncond ((acceptRaw_iff k v).mp hacc)]

/-- Concrete instance of C3 (the spec's own test): a file with one valid
Teams entry, one `webchat:`-keyed entry and one Teams entry with an empty
conversation id loads to a store containing only the first. -/
theorem load_accepts_iff_witness :
    lookupKey (load_conversation_references
        [("msteams:c1", ⟨none, none, none, some ⟨"c1"⟩, some "msteams", none⟩),
         ("webchat:c9", ⟨none, none, none, some ⟨"c9"⟩, some "webchat", none⟩),
         ("msteams:c2", ⟨none, none, none, some ⟨""⟩, some "msteams", none⟩)])
        "msteams:c1"
      = some (fromRaw ⟨none, none, none, some ⟨"c1"⟩, some "msteams", none⟩) ∧
    lookupKey (load_conversation_references
        [("msteams:c1", ⟨none, none, none, some ⟨"c1"⟩, some "msteams", none⟩),
         ("webchat:c9", ⟨none, none, none, some ⟨"c9"⟩, some "webchat", none⟩),
         ("msteams:c2", ⟨none, none, none, some ⟨""⟩, some "msteams", none⟩)])
        "webchat:c9"
      = none := by
  constructor
  · exact (load_accepts_iff _ (by decide) "msteams:c1"
      ⟨none, none, none, some ⟨"c1"⟩, some "msteams", none⟩
      (by decide)).1.mpr ⟨by decide, ⟨"c1"⟩, rfl, by decide⟩
  · refine (load_accepts_iff _ (by decide) "webchat:c9"
      ⟨none, none, none, some ⟨"c9"⟩, some "webchat", none⟩
      (by decide)).2 ?_
    rintro ⟨hpre, -⟩
    exact absurd hpre (by decide)

/-- C1: for every activity handled by `on_turn`, the reference store is
mutated if and only if the activity has a conversation with a non-empty id,
its channel is `"msteams"`, and the key `"<channel_id>:<conversation.id>"`
is either absent from the store or stored with a different `service_url`;
in every other case the store is left unchanged and no save happens; when
mutated, the entry for that key becomes the fresh reference built from the
activity's fields (`mkRef`) and the full mapping is saved synchronously. -/
theorem on_turn_store_mutation_iff
    (router : Option String → Except String String)
    (send : String → Except String Unit) (store : Store) (a : Activity) :
    (∀ c, a.conversation = some c → c.id ≠ "" → a.channel_id = "msteams" →
        (lookupKey store (a.channel_id ++ ":" ++ c.id) = none ∨
          (∃ old, lookupKey store (a.channel_id ++ ":" ++ c.id) = some old ∧
            old.service_url ≠ some a.service_url)) →
        ((on_turn router send store a).store
            = upsertMap store (a.channel_id ++ ":" ++ c.id) (mkRef a) ∧
          (on_turn router send store a).saved = true ∧
          (on_turn router send store a).fileWrite
            = some (save_conversation_references (on_turn router send store a).store) ∧
          lookupKey (on_turn router send store a).store (a.channel_id ++ ":" ++ c.id)
            = some (mkRef a) ∧
          (on_turn router send store a).store ≠ store))
      ∧ ((¬ ∃ c, a.conversation = some c ∧ c.id ≠ "" ∧ a.channel_id = "msteams" ∧
            (lookupKey store (a.channel_id ++ ":" ++ c.id) = none ∨
              ∃ old, lookupKey store (a.channel_id ++ ":" ++ c.id) = some old ∧
                old.service_url ≠ some a.service_url)) →
          ((on_turn router send store a).store = store ∧
            (on_turn router send store a).saved = false ∧
            (on_turn router send store a).fileWrite = none)) := by
  constructor
  · intro c hconv hid hch hcond
    have hupd : needsUpdate store (a.channel_id ++ ":" ++ c.id) a.service_url = true :=
      (needsUpdate_true_iff store (a.channel_id ++ ":" ++ c.id) a.service_url).mpr hcond
    obtain ⟨h1, h2, h3⟩ := on_turn_store_fields router send store a c hconv hid
    rw [storeUpdate_pos store a c hch hupd] at h1 h2 h3
    refine ⟨h1, h2, ?_, ?_, ?_⟩
    · rw [h1]; exact h3
    · rw [h1]; exact lookupKey_upsertMap_self store _ (mkRef a)
    · rw [h1]
      intro hEq
      have hsame : lookupKey store (a.channel_id ++ ":" ++ c.id) = some (mkRef a) := by
        rw [← hEq]
        exact lookupKey_upsertMap_self store _ (mkRef a)
      rcases hcond with hnone | ⟨old, hold, hne⟩
      · rw [hsame] at hnone; cases hnone
      · rw [hsame] at hold
        injection hold with hrefeq
        exact hne (hrefeq ▸ rfl)
  · intro hncond
    cases hconv : a.conversation with
    | none =>
      rw [on_turn_no_conversation router send store a hconv]
      exact ⟨rfl, rfl, rfl⟩
    | some c =>
      by_cases hid : c.id = ""
      · rw [on_turn_empty_conversation router send store a c hconv hid]
        exact ⟨rfl, rfl, rfl⟩
      · obtain ⟨h1, h2, h3⟩ := on_turn_store_fields router send store a c hconv hid
        have hneg : ¬ (a.channel_id = "msteams" ∧
            needsUpdate store (a.channel_id ++ ":" ++ c.id) a.service_url = true) := by
          rintro ⟨hch, hupd⟩
          exact hncond ⟨c, hconv, hid, hch,
            (needsUpdate_true_iff store (a.channel_id ++ ":" ++ c.id) a.service_url).mp hupd⟩
        rw [storeUpdate_neg store a c hneg] at h1 h2 h3
        exact ⟨h1, h2, h3⟩

/-- Concrete instance of C1: a Teams message activity arriving on an empty
store triggers the upsert and the synchronous save. -/
theorem on_turn_store_mutation_iff_witness :
    (on_turn (fun _ => Except.ok "reply") (fun _ => Except.ok ()) [] wActMsg).saved
        = true ∧
      (on_turn (fun _ => Except.ok "reply") (fun _ => Except.ok ()) [] wActMsg).store
        ≠ [] := by
  have h := (on_turn_store_mutation_iff (fun _ => Except.ok "reply")
    (fun _ => Except.ok ()) [] wActMsg).1 ⟨"c1"⟩ rfl (by decide) rfl (Or.inl rfl)
  exact ⟨h.2.1, h.2.2.2.2⟩

/-- C9: when a Teams message activity triggers a store update, the
in-memory upsert and the synchronous file save both happen before the
router is invoked: for every router and every reply transport — including
ones that raise — the new reference is in the final store and in the
written file. -/
theorem on_turn_store_persists_before_router
    (router : Option String → Except String String)
    (send : String → Except String Unit) (store : Store) (a : Activity)
    (c : ConversationAccount)
    (hconv : a.conversation = some c) (hid : c.id ≠ "")
    (hch : a.channel_id = "msteams")
    (ht : a.type = ActivityTypes.message)
    (hupd : needsUpdate store (a.channel_id ++ ":" ++ c.id) a.service_url = true) :
    (on_turn router send store a).store
        = upsertMap store (a.channel_id ++ ":" ++ c.id) (mkRef a) ∧
      (on_turn router send store a).saved = true ∧
      (on_turn router send store a).fileWrite
        = some (save_conversation_references
            (upsertMap store (a.channel_id ++ ":" ++ c.id) (mkRef a))) ∧
      lookupKey
          (save_conversation_references
            (upsertMap store (a.channel_id ++ ":" ++ c.id) (mkRef a)))
          (a.channel_id ++ ":" ++ c.id)
        = some (toRawEntry (mkRef a)) := by
  obtain ⟨h1, h2, h3⟩ := on_turn_store_fields router send store a c hconv hid
  rw [storeUpdate_pos store a c hch hupd] at h1 h2 h3
  refine ⟨h1, h2, h3, ?_⟩
  rw [lookupKey_save, lookupKey_upsertMap_self]
  rfl

/-- Concrete instance of C9: with a router that raises, the reference is
nevertheless stored, saved to the file, and the exception propagates. -/
theorem on_turn_store_persists_before_router_witness :
    (on_turn (fun _ => Except.error "router down") (fun _ => Except.ok ()) []
          wActMsg).saved = true ∧
      lookupKey
          (save_conversation_references
            (upsertMap [] ("msteams" ++ ":" ++ "c1") (mkRef wActMsg)))
          ("msteams" ++ ":" ++ "c1")
        = some (toRawEntry (mkRef wActMsg)) ∧
      (on_turn (fun _ => Except.error "router down") (fun _ => Except.ok ()) []
          wActMsg).error = some "router down" := by
  have h := on_turn_store_persists_before_router
    (fun _ => Except.error "router down") (fun _ => Except.ok ()) [] wActMsg
    ⟨"c1"⟩ rfl (by decide) rfl rfl rfl
  exact ⟨h.2.1, h.2.2.2, by decide⟩

/-- C6: for every message-type activity with a non-empty conversation id,
`on_turn` invokes the router exactly once, passing it the activity's text,
and (when the router and the send succeed) sends exactly one reply whose
text is the router's output content. -/
theorem on_turn_message_routes_once
    (router : Option String → Except String String)
    (send : String → Except String Unit) (store : Store) (a : Activity)
    (c : ConversationAccount) (content : String)
    (hconv : a.conversation = some c) (hid : c.id ≠ "")
    (ht : a.type = ActivityTypes.message)
    (hrouter : router a.text = Except.ok content)
    (hsend : send content = Except.ok ()) :
    (on_turn router send store a).routerCalls = [a.text] ∧
      (on_turn router send store a).replies = [content] ∧
      (on_turn router send store a).error = none := by
  obtain ⟨h1, h2⟩ := on_turn_message_shape router send store a c hconv hid ht
  rw [hrouter] at h2
  simp only [hsend, Prod.mk.injEq] at h2
  exact ⟨h1, h2.1, h2.2⟩

/-- Concrete instance of C6: a message activity whose router answers
`"you said hello"` yields exactly that single reply. -/
theorem on_turn_message_routes_once_witness :
    (on_turn (fun t => Except.ok ("you said " ++ t.getD ""))
          (fun _ => Except.ok ()) [] wActMsg).routerCalls = [some "hello"] ∧
      (on_turn (fun t => Except.ok ("you said " ++ t.getD ""))
          (fun _ => Except.ok ()) [] wActMsg).replies = ["you said hello"] := by
  have h := on_turn_message_routes_once
    (fun t => Except.ok ("you said " ++ t.getD "")) (fun _ => Except.ok ())
    [] wActMsg ⟨"c1"⟩ "you said hello" rfl (by decide) rfl rfl rfl
  exact ⟨h.1, h.2.1⟩

/-- C7: for every conversation-update activity (non-empty conversation id,
non-empty members-added list, recipient present, greeting send succeeding):
if some added member's id differs from the bot's recipient id, exactly one
fixed greeting reply is sent; if no added member qualifies, no reply is
sent; in both cases nothing is routed and no exception propagates. -/
theorem on_turn_conversation_update_greeting
    (router : Option String → Except String String)
    (send : String → Except String Unit) (store : Store) (a : Activity)
    (c : ConversationAccount) (r : ChannelAccount)
    (hconv : a.conversation = some c) (hid : c.id ≠ "")
    (ht : a.type = ActivityTypes.conversation_update)
    (hm : a.members_added ≠ [])
    (hrec : a.recipient = some r)
    (hsend : send greeting = Except.ok ()) :
    (on_turn router send store a).routerCalls = [] ∧
      ((∃ m ∈ a.members_added, m.id ≠ r.id) →
        (on_turn router send store a).replies = [greeting] ∧
          (on_turn router send store a).error = none) ∧
      ((∀ m ∈ a.members_added, m.id = r.id) →
        (on_turn router send store a).replies = [] ∧
          (on_turn router send store a).error = none) := by
  obtain ⟨h1, h2, h3⟩ := on_turn_update_shape router send store a c hconv hid ht hm
  rw [hrec] at h2 h3
  refine ⟨h1, ?_, ?_⟩
  · intro hex
    have hg := (greetLoop_some_spec send r hsend a.members_added).1 hex
    rw [h2, h3, hg]
    exact ⟨rfl, rfl⟩
  · intro hall
    have hg := (greetLoop_some_spec send r hsend a.members_added).2 hall
    rw [h2, h3, hg]
    exact ⟨rfl, rfl⟩

/-- Concrete instance of C7 (the spec's own test): two added members, the
first being the bot itself, produce exactly one greeting. -/
theorem on_turn_conversation_update_greeting_witness :
    (on_turn (fun _ => Except.ok "x") (fun _ => Except.ok ()) [] wActUpd).replies
      = [greeting] := by
  have h := on_turn_conversation_update_greeting
    (fun _ => Except.ok "x") (fun _ => Except.ok ()) [] wActUpd
    ⟨"c1"⟩ ⟨"b1"⟩ rfl (by decide) rfl (by decide) rfl rfl
  exact (h.2.1 ⟨⟨"u9"⟩, by decide, by decide⟩).1

/-- C10: for every conversation-update activity with a non-empty
conversation id and a non-empty members-added list, `on_turn` dereferences
`activity.recipient.id` without a guard: when `recipient` is absent, the
turn raises (an `AttributeError` propagates) instead of completing
silently, and no reply is sent. -/
theorem on_turn_missing_recipient_raises
    (router : Option String → Except String String)
    (send : String → Except String Unit) (store : Store) (a : Activity)
    (c : ConversationAccount)
    (hconv : a.conversation = some c) (hid : c.id ≠ "")
    (ht : a.type = ActivityTypes.conversation_update)
    (hm : a.members_added ≠ [])
    (hrec : a.recipient = none) :
    (on_turn router send store a).error = some recipientNoneError ∧
      (on_turn router send store a).replies = [] := by
  obtain ⟨h1, h2, h3⟩ := on_turn_update_shape router send store a c hconv hid ht hm
  rw [hrec] at h2 h3
  cases hms : a.members_added with
  | nil => exact absurd hms hm
  | cons m rest =>
    rw [hms] at h2 h3
    rw [greetLoop_none_spec] at h2 h3
    exact ⟨h3, h2⟩

/-- Concrete instance of C10: the two-member conversation update with no
recipient raises instead of replying. -/
theorem on_turn_missing_recipient_raises_witness :
    (on_turn (fun _ => Except.ok "x") (fun _ => Except.ok ())
          [] { wActUpd with recipient := none }).error
      = some recipientNoneError := by
  exact (on_turn_missing_recipient_raises (fun _ => Except.ok "x")
    (fun _ => Except.ok ()) [] { wActUpd with recipient := none }
    ⟨"c1"⟩ rfl (by decide) rfl (by decide) rfl).1

/-- Refutes C4 as stated: `load_conversation_references` admits entries by
their KEY prefix only, never checking the entry's `channel_id` field, so a
file entry keyed `"msteams:x"` whose `channel_id` field is `"webchat"` is
admitted into the store with `channel_id ≠ "msteams"`. -/
theorem load_channel_id_counterexample :
    ¬ (∀ kv ∈ load_conversation_references
          [("msteams:x", ⟨none, none, none, some ⟨"x"⟩, some "webchat", none⟩)],
        kv.2.channel_id = some "msteams") := by
  decide

/-- C4 (amended): every entry present in the reference store — whether
admitted by `load_conversation_references` or inserted by the dispatcher —
has its KEY prefixed `"msteams:"` and a conversation with a non-empty id,
and both state-mutating operations preserve this; entries inserted by the
dispatcher additionally have `channel_id = "msteams"`, but entries admitted
by load are only guaranteed the key prefix (their `channel_id` field may
differ, see the counterexample). -/
theorem store_wellformed_invariant :
    (∀ data : List (String × RawEntry), StoreWF (load_conversation_references data))
      ∧ (∀ (router : Option String → Except String String)
          (send : String → Except String Unit) (store : Store) (a : Activity),
          StoreWF store → StoreWF (on_turn router send store a).store)
      ∧ (∀ (router : Option String → Except String String)
          (send : String → Except String Unit) (store : Store) (a : Activity),
          (on_turn router send store a).saved = true →
          ∃ c, a.conversation = some c ∧ c.id ≠ "" ∧ a.channel_id = "msteams" ∧
            lookupKey (on_turn router send store a).store (a.channel_id ++ ":" ++ c.id)
              = some (mkRef a) ∧
            (mkRef a).channel_id = some "msteams") := by
  refine ⟨load_wf, ?_, ?_⟩
  · intro router send store a hwf
    cases hconv : a.conversation with
    | none =>
      rw [on_turn_no_conversation router send store a hconv]
      exact hwf
    | some c =>
      by_cases hid : c.id = ""
      · rw [on_turn_empty_conversation router send store a c hconv hid]
        exact hwf
      · obtain ⟨h1, -, -⟩ := on_turn_store_fields router send store a c hconv hid
        rw [h1]
        by_cases hcond : a.channel_id = "msteams" ∧
            needsUpdate store (a.channel_id ++ ":" ++ c.id) a.service_url = true
        · rw [storeUpdate_pos store a c hcond.1 hcond.2]
          intro kv hkv
          rcases mem_upsertMap _ _ _ kv hkv with hmem | heq
          · exact hwf kv hmem
          · rw [heq]
            refine ⟨?_, c, by simp [mkRef, hconv], hid⟩
            rw [hcond.1, show ("msteams" ++ ":") = "msteams:" by decide]
            exact pyStartsWith_append "msteams:" c.id
        · rw [storeUpdate_neg store a c hcond]
          exact hwf
  · intro router send store a hsaved
    cases hconv : a.conversation with
    | none =>
      rw [on_turn_no_conversation router send store a hconv] at hsaved
      cases hsaved
    | some c =>
      by_cases hid : c.id = ""
      · rw [on_turn_empty_conversation router send store a c hconv hid] at hsaved
        cases hsaved
      · obtain ⟨h1, h2, -⟩ := on_turn_store_fields router send store a c hconv hid
        by_cases hcond : a.channel_id = "msteams" ∧
            needsUpdate store (a.channel_id ++ ":" ++ c.id) a.service_url = true
        · refine ⟨c, rfl, hid, hcond.1, ?_, by simp [mkRef, hcond.1]⟩
          rw [h1, storeUpdate_pos store a c hcond.1 hcond.2]
          exact lookupKey_upsertMap_self store _ (mkRef a)
        · rw [h2, storeUpdate_neg store a c hcond] at hsaved
          cases hsaved

/-- Concrete instance of the amended C4: the store produced by a Teams
message turn on the empty store is well-formed. -/
theorem store_wellformed_invariant_witness :
    StoreWF (on_turn (fun _ => Except.ok "r") (fun _ => Except.ok ()) [] wActMsg).store := by
  exact store_wellformed_invariant.2.1 (fun _ => Except.ok "r")
    (fun _ => Except.ok ()) [] wActMsg (fun kv hkv => by cases hkv)

/-- C5: `send_adaptive_card` never fails outright (its status is always
`"error"` or `"completed"`); on an empty store it returns status `"error"`
with no transport attempt; on a non-empty store it returns `"completed"`
with exactly one per-conversation result per stored entry, where an entry
without a conversation identity yields an error result, a transport failure
yields an error result carrying the error text, and a transport success
yields a success result — each entry's outcome depending only on that entry
— and the transport is attempted exactly for the entries with a
conversation identity. -/
theorem send_adaptive_card_spec
    (transport : ConversationReference → Except String Unit) (store : Store) :
    ((send_adaptive_card transport store).1.status = "error" ∨
        (send_adaptive_card transport store).1.status = "completed") ∧
      (store = [] →
        (send_adaptive_card transport store).1.status = "error" ∧
          (send_adaptive_card transport store).2 = []) ∧
      (store ≠ [] →
        (send_adaptive_card transport store).1.status = "completed" ∧
          (send_adaptive_card transport store).1.results.length = store.length ∧
          (∀ i (hi : i < store.length),
            (hasConvId (store.get ⟨i, hi⟩).2 = false →
              (send_adaptive_card transport store).1.results[i]?
                = some ⟨(store.get ⟨i, hi⟩).1, "error", some "Invalid conversation.id"⟩) ∧
            (∀ e, hasConvId (store.get ⟨i, hi⟩).2 = true →
              transport (store.get ⟨i, hi⟩).2 = Except.error e →
              (send_adaptive_card transport store).1.results[i]?
                = some ⟨(store.get ⟨i, hi⟩).1, "error", some e⟩) ∧
            (hasConvId (store.get ⟨i, hi⟩).2 = true →
              transport (store.get ⟨i, hi⟩).2 = Except.ok () →
              (send_adaptive_card transport store).1.results[i]?
                = some ⟨(store.get ⟨i, hi⟩).1, "success", none⟩)) ∧
          (∀ k, k ∈ (send_adaptive_card transport store).2 ↔
            ∃ kv ∈ store, kv.1 = k ∧ hasConvId kv.2 = true)) := by
  by_cases hempty : store = []
  · subst hempty
    exact ⟨Or.inl rfl, fun _ => ⟨rfl, rfl⟩, fun h => absurd rfl h⟩
  · have hform : send_adaptive_card transport store
        = (⟨"completed", none, store.map (itemResultFor transport)⟩,
           (store.filter fun kv => hasConvId kv.2).map Prod.fst) := by
      unfold send_adaptive_card
      rw [if_neg hempty]
    rw [hform]
    refine ⟨Or.inr rfl, fun h => absurd h hempty, fun _ => ⟨rfl, by simp, ?_, ?_⟩⟩
    · intro i hi
      have hidx : (store.map (itemResultFor transport))[i]?
          = some (itemResultFor transport (store.get ⟨i, hi⟩)) := by
        rw [List.getElem?_map, List.getElem?_eq_getElem hi]
        rfl
      refine ⟨?_, ?_, ?_⟩
      · intro hno
        rw [hidx]
        unfold itemResultFor
        rw [hno]
        rfl
      · intro e hyes htr
        rw [hidx]
        unfold itemResultFor
        rw [hyes, htr]
        simp
      · intro hyes htr
        rw [hidx]
        unfold itemResultFor
        rw [hyes, htr]
        simp
    · intro k
      constructor
      · intro hk
        rcases List.mem_map.mp hk with ⟨kv, hkv, hfst⟩
        rcases List.mem_filter.mp hkv with ⟨hmem, hconv⟩
        exact ⟨kv, hmem, hfst, hconv⟩
      · rintro ⟨kv, hmem, rfl, hconv⟩
        exact List.mem_map_of_mem Prod.fst (List.mem_filter.mpr ⟨hmem, hconv⟩)

/-- Concrete instance of C5 (the spec's own test): an empty store gives
status error; three stored references with the second lacking a
conversation identity give status completed with outcomes
success/error/success. -/
theorem send_adaptive_card_spec_witness :
    (send_adaptive_card (fun _ => Except.ok ()) []).1.status = "error" ∧
      (send_adaptive_card (fun _ => Except.ok ())
          [("msteams:c1", ⟨none, none, none, some ⟨"c1"⟩, some "msteams", none⟩),
           ("msteams:c2", ⟨none, none, none, none, some "msteams", none⟩),
           ("msteams:c3", ⟨none, none, none, some ⟨"c3"⟩, some "msteams", none⟩)]).1.status
        = "completed" ∧
      (send_adaptive_card (fun _ => Except.ok ())
          [("msteams:c1", ⟨none, none, none, some ⟨"c1"⟩, some "msteams", none⟩),
           ("msteams:c2", ⟨none, none, none, none, some "msteams", none⟩),
           ("msteams:c3", ⟨none, none, none, some ⟨"c3"⟩, some "msteams", none⟩)]).1.results[1]?
        = some ⟨"msteams:c2", "error", some "Invalid conversation.id"⟩ := by
  refine ⟨((send_adaptive_card_spec (fun _ => Except.ok ()) []).2.1 rfl).1, ?_, ?_⟩
  · exact ((send_adaptive_card_spec (fun _ => Except.ok ())
      [("msteams:c1", ⟨none, none, none, some ⟨"c1"⟩, some "msteams", none⟩),
       ("msteams:c2", ⟨none, none, none, none, some "msteams", none⟩),
       ("msteams:c3", ⟨none, none, none, some ⟨"c3"⟩, some "msteams", none⟩)]).2.2
      (by decide)).1
  · exact (((send_adaptive_card_spec (fun _ => Except.ok ())
      [("msteams:c1", ⟨none, none, none, some ⟨"c1"⟩, some "msteams", none⟩),
       ("msteams:c2", ⟨none, none, none, none, some "msteams", none⟩),
       ("msteams:c3", ⟨none, none, none, some ⟨"c3"⟩, some "msteams", none⟩)]).2.2
      (by decide)).2.2.1 1 (by decide)).1 (by decide)

/-- Refutes C8 as stated: the handler's `except ValueError` clause catches
`ValueError`s raised anywhere in the `try` block, so a `ValueError` raised
during activity processing — with a perfectly well-formed request body —
also yields status 400 with the fixed malformed-JSON detail, where the
claim requires a 500 carrying the exception's message. -/
theorem messages_valueerror_counterexample :
    messages (Except.ok ())
        (fun _ => Except.error ⟨true, "ValueError raised inside the router"⟩)
      = ⟨400, RespBody.detail "Invalid JSON in request body"⟩ := rfl

/-- C8 (amended): `POST /api/messages` returns status 400 with detail
`"Invalid JSON in request body"` exactly when a `ValueError` is raised
while handling the request (malformed JSON in the body being the typical
source, but a `ValueError` escaping activity processing triggers it too);
a non-`ValueError` exception yields status 500 with the exception's text as
detail; success yields status 200 with an empty JSON object. -/
theorem messages_status_spec {β : Type} (parsed : Except PyExc β)
    (process : β → Except PyExc Unit) :
    (messages parsed process = ⟨400, RespBody.detail "Invalid JSON in request body"⟩ ↔
        ∃ e, (parsed = Except.error e ∨
            ∃ b, parsed = Except.ok b ∧ process b = Except.error e) ∧
          e.isValueError = true) ∧
      (messages parsed process = ⟨200, RespBody.emptyObj⟩ ↔
        ∃ b, parsed = Except.ok b ∧ process b = Except.ok ()) ∧
      (∀ e, (parsed = Except.error e ∨
            ∃ b, parsed = Except.ok b ∧ process b = Except.error e) →
          e.isValueError = false →
          messages parsed process = ⟨500, RespBody.detail e.msg⟩) := by
  cases parsed with
  | error e =>
    refine ⟨?_, ?_, ?_⟩
    · by_cases hv : e.isValueError
      · simp only [messages, hv, if_pos]
        constructor
        · intro _; exact ⟨e, Or.inl rfl, hv⟩
        · intro _; trivial
      · simp only [messages, hv, if_neg, ite_false]
        constructor
        · intro hcontra; cases hcontra
        · rintro ⟨e', he', hv'⟩
          rcases he' with he' | ⟨b, hb, -⟩
          · injection he' with h; subst h; exact absurd hv' hv
          · cases hb
    · constructor
      · intro hcontra
        simp only [messages] at hcontra
        by_cases hv : e.isValueError
        · rw [if_pos hv] at hcontra; cases hcontra
        · rw [if_neg hv] at hcontra; cases hcontra
      · rintro ⟨b, hb, -⟩; cases hb
    · intro e' he' hnv
      rcases he' with he' | ⟨b, hb, -⟩
      · injection he' with h
        subst h
        simp [messages, hnv]
      · cases hb
  | ok b =>
    cases hp : process b with
    | ok u =>
      cases u
      refine ⟨?_, ?_, ?_⟩
      · simp only [messages, hp]
        constructor
        · intro hcontra; cases hcontra
        · rintro ⟨e, he, -⟩
          rcases he with he | ⟨b', hb', hpe⟩
          · cases he
          · injection hb' with h
            subst h
            rw [hp] at hpe
            cases hpe
      · simp only [messages, hp]
        constructor
        · intro _; exact ⟨b, rfl, hp⟩
        · intro _; trivial
      · intro e he hnv
        rcases he with he | ⟨b', hb', hpe⟩
        · cases he
        · injection hb' with h
          subst h
          rw [hp] at hpe
          cases hpe
    | error e =>
      refine ⟨?_, ?_, ?_⟩
      · by_cases hv : e.isValueError
        · simp only [messages, hp, hv, if_pos]
          constructor
          · intro _; exact ⟨e, Or.inr ⟨b, rfl, hp⟩, hv⟩
          · intro _; trivial
        · simp only [messages, hp, hv, if_neg, ite_false]
          constructor
          · intro hcontra; cases hcontra
          · rintro ⟨e', he', hv'⟩
            rcases he' with he' | ⟨b', hb', hpe⟩
            · cases he'
            · injection hb' with h
              subst h
              rw [hp] at hpe
              injection hpe with h'
              subst h'
              exact absurd hv' hv
      · simp only [messages, hp]
        constructor
        · intro hcontra
          by_cases hv : e.isValueError
          · rw [if_pos hv] at hcontra; cases hcontra
          · rw [if_neg hv] at hcontra; cases hcontra
        · rintro ⟨b', hb', hpe⟩
          injection hb' with h
          subst h
          rw [hp] at hpe
          cases hpe
      · intro e' he' hnv
        rcases he' with he' | ⟨b', hb', hpe⟩
        · cases he'
        · injection hb' with h
          subst h
          rw [hp] at hpe
          injection hpe with h'
          subst h'
          simp [messages, hp, hnv]

/-- Concrete instance of the amended C8: a parse-time `ValueError` gives
the fixed 400 response; a non-`ValueError` failure during processing gives
a 500 carrying its message; a clean turn gives 200 with an empty object. -/
theorem messages_status_spec_witness :
    messages (Except.error ⟨true, "Expecting value"⟩) (fun _ : Unit => Except.ok ())
        = ⟨400, RespBody.detail "Invalid JSON in request body"⟩ ∧
      messages (Except.ok ()) (fun _ : Unit => Except.error ⟨false, "router exploded"⟩)
        = ⟨500, RespBody.detail "router exploded"⟩ ∧
      messages (Except.ok ()) (fun _ : Unit => Except.ok ())
        = ⟨200, RespBody.emptyObj⟩ := by
  refine ⟨?_, ?_, ?_⟩
  · exact (messages_status_spec (Except.error ⟨true, "Expecting value"⟩)
      (fun _ : Unit => Except.ok ())).1.mpr ⟨⟨true, "Expecting value"⟩, Or.inl rfl, rfl⟩
  · exact (messages_status_spec (Except.ok ())
      (fun _ : Unit => Except.error ⟨false, "router exploded"⟩)).2.2
      ⟨false, "router exploded"⟩ (Or.inr ⟨(), rfl, rfl⟩) rfl
  · exact (messages_status_spec (Except.ok ())
      (fun _ : Unit => Except.ok ())).2.1.mpr ⟨(), rfl, rfl⟩

end TeamsBroadcast
